import Mathlib

/-!
Verification of the core behaviours of an Obsidian Google-Calendar sync
plugin (src/main.ts, the multi-calendar variant at the bottom of the file):
OAuth2 token lifecycle management in `ensureValidAccessToken`, and the
multi-source event aggregation, deterministic sorting and rendering in
`fetchAndInsertEvents`.

The host primitives (network transport, JSON parsing of the responses, the
JavaScript `Date` parser, the settings store) are modelled as explicit
inputs: a network interaction is an `Except` value carrying either the
already-parsed response record or the thrown error text, and the `Date`
parser is an explicit function `String → Int` giving epoch milliseconds.
JavaScript string truthiness (empty string is falsy) is modelled by
`strTruthy` / `jsOrStr`, and numeric truthiness (zero is falsy) by
`jsOrNum`.
-/

/-- Truthiness of a possibly-absent JavaScript string: truthy iff present and
non-empty. -/
def strTruthy : Option String → Bool
  | some s => !(s == "")
  | none => false

/-- The JavaScript idiom `x || d` for a possibly-absent string `x`: the value
of `x` when truthy, otherwise the default `d`. -/
def jsOrStr (x : Option String) (d : String) : String :=
  match x with
  | some s => if s == "" then d else s
  | none => d

/-- The JavaScript idiom `x || d` for a possibly-absent number `x`: the value
of `x` when truthy (non-zero), otherwise the default `d`. -/
def jsOrNum (x : Option Int) (d : Int) : Int :=
  match x with
  | some v => if v == 0 then d else v
  | none => d

/-- One configured calendar source, from the `Calendar` interface in
src/main.ts: an identifier and a user-facing label. -/
structure Calendar where
  id : String
  label : String
deriving Repr, DecidableEq

/-- The persisted plugin settings, from the `GoogleCalendarSettings`
interface in src/main.ts. `accessTokenExpiry` is an epoch-millisecond
timestamp. -/
structure GoogleCalendarSettings where
  clientId : String
  clientSecret : String
  refreshToken : String
  accessToken : String
  accessTokenExpiry : Int
  calendars : List Calendar
deriving Repr, DecidableEq

/-- The fields of a parsed token-endpoint response body that
`ensureValidAccessToken` reads: `data.access_token` and `data.expires_in`
(seconds). Either may be absent from the JSON. -/
structure RefreshResponse where
  access_token : Option String
  expires_in : Option Int
deriving Repr, DecidableEq

/-- The distinct exits of `ensureValidAccessToken`, one per return site of
the TypeScript function (each failing site shows its own distinct notice):
`ok` for `return true`, `notAuthenticated` for the missing-refresh-token
notice, `refreshRejected` for the failed-to-refresh notice, and
`transportFailure` for the catch block (network error or a JSON parse
error). -/
inductive AuthOutcome where
  | ok
  | notAuthenticated
  | refreshRejected
  | transportFailure
deriving Repr, DecidableEq

/-- The observable result of one `ensureValidAccessToken` call: which exit
was taken, the settings object afterwards, how many network requests were
issued, and how many times `saveSettings` (persistence) ran. -/
structure AuthResult where
  outcome : AuthOutcome
  settings : GoogleCalendarSettings
  networkCalls : Nat
  saves : Nat
deriving Repr, DecidableEq

/-- Shallow embedding of `ensureValidAccessToken` (src/main.ts lines
409-449). `now` is the value of `Date.now()` captured before the refresh
request; `net` is the outcome of the single possible network interaction,
already JSON-parsed (`Except.error` covers both a transport error and a
non-parseable body, which the same catch block handles). -/
def ensureValidAccessToken (s : GoogleCalendarSettings) (now : Int)
    (net : Except String RefreshResponse) : AuthResult :=
  if s.refreshToken = "" then
    { outcome := AuthOutcome.notAuthenticated, settings := s, networkCalls := 0, saves := 0 }
  else if s.accessToken ≠ "" ∧ s.accessTokenExpiry > now + 60000 then
    { outcome := AuthOutcome.ok, settings := s, networkCalls := 0, saves := 0 }
  else
    match net with
    | Except.error _ =>
        { outcome := AuthOutcome.transportFailure, settings := s, networkCalls := 1, saves := 0 }
    | Except.ok data =>
        if strTruthy data.access_token then
          { outcome := AuthOutcome.ok,
            settings :=
              { s with
                accessToken := (data.access_token).getD ("")
                accessTokenExpiry := now + jsOrNum data.expires_in 3600 * 1000 },
            networkCalls := 1, saves := 1 }
        else
          { outcome := AuthOutcome.refreshRejected, settings := s, networkCalls := 1, saves := 0 }

/-- A raw event item of one event-list response, keeping only the fields
that `fetchAndInsertEvents` reads: `event.summary`, `event.start?.dateTime`,
`event.start?.date` and `event.description`. Each is a possibly-absent
string. -/
structure RawEvent where
  summary : Option String
  startDateTime : Option String
  startDate : Option String
  description : Option String
deriving Repr, DecidableEq

/-- One entry of the `allEvents` array built by `fetchAndInsertEvents`
(src/main.ts lines 471-509); the shape the spec calls a NormalizedEvent.
`startTime` (the startInstant of the spec) is the epoch-millisecond value of
`new Date(startTimeStr)`, or `none` for the JavaScript `null`;
`calendarIndex` is the sourceOrder of the spec. -/
structure NormalizedEvent where
  event : RawEvent
  calendarLabel : String
  calendarIndex : Nat
  isAllDay : Bool
  startTime : Option Int
deriving Repr, DecidableEq

/-- Shallow embedding of the per-event normalization in the fetch loop
(src/main.ts lines 497-509): `isAllDay = !event.start?.dateTime`,
`startTimeStr = event.start?.dateTime || event.start?.date`,
`startTime = startTimeStr ? new Date(startTimeStr) : null`. The JavaScript
`Date` parser is the explicit argument `parse`. -/
def normalizeEvent (parse : String → Int) (calendar : Calendar) (calendarIndex : Nat)
    (event : RawEvent) : NormalizedEvent :=
  let isAllDay := !(strTruthy event.startDateTime)
  let startTimeStr : Option String :=
    if strTruthy event.startDateTime then event.startDateTime else event.startDate
  let startTime : Option Int :=
    match startTimeStr with
    | some s => if s == "" then none else some (parse s)
    | none => none
  { event := event, calendarLabel := calendar.label, calendarIndex := calendarIndex,
    isAllDay := isAllDay, startTime := startTime }

/-- The notice text recorded when fetching one source fails (src/main.ts
line 511); it names the failed source by its label. -/
def sourceFailureNotice (calendar : Calendar) (err : String) : String :=
  ("Error fetching events from \"") ++ calendar.label ++ ("\": ") ++ err

/-- Accumulator-passing embedding of the per-calendar fetch loop of
`fetchAndInsertEvents` (src/main.ts lines 479-513). `rem` pairs each
remaining calendar with the outcome of its event-list request, already
JSON-parsed and with an absent `items` array read as `[]`; `i` is the
current `calendarIndex`. A successful source appends its normalized events
to `allEvents`; a failed source appends one diagnostic notice and
contributes no events, and the loop continues. -/
def fetchLoopGo (parse : String → Int) (i : Nat)
    (rem : List (Calendar × Except String (List RawEvent)))
    (allEvents : List NormalizedEvent) (notices : List String) :
    List NormalizedEvent × List String :=
  match rem with
  | [] => (allEvents, notices)
  | (calendar, resp) :: rest =>
    match resp with
    | Except.ok items =>
        fetchLoopGo parse (i + 1) rest
          (allEvents ++ items.map (normalizeEvent parse calendar i)) notices
    | Except.error err =>
        fetchLoopGo parse (i + 1) rest allEvents
          (notices ++ [sourceFailureNotice calendar err])

/-- The whole fetch loop of `fetchAndInsertEvents`, started with index 0 and
empty accumulators: returns the `allEvents` array and the list of per-source
failure notices. -/
def fetchLoop (parse : String → Int)
    (sources : List (Calendar × Except String (List RawEvent))) :
    List NormalizedEvent × List String :=
  fetchLoopGo parse 0 sources [] []

/-- Shallow embedding of the merge comparator passed to `allEvents.sort`
(src/main.ts lines 521-536): all-day events first; then, only when both
events are timed and both have a (non-null) start time and those times
differ, the difference of the times; otherwise the difference of the
calendar indices. -/
def cmpEvents (a b : NormalizedEvent) : Int :=
  if a.isAllDay != b.isAllDay then
    if a.isAllDay then -1 else 1
  else
    match a.isAllDay, b.isAllDay, a.startTime, b.startTime with
    | false, false, some ta, some tb =>
        if ta != tb then ta - tb
        else (a.calendarIndex : Int) - (b.calendarIndex : Int)
    | _, _, _, _ => (a.calendarIndex : Int) - (b.calendarIndex : Int)

/-- The ordering relation induced by the merge comparator: `a` may come
before `b` exactly when the comparator is non-positive. -/
def evLE (a b : NormalizedEvent) : Prop := cmpEvents a b ≤ 0

instance : DecidableRel evLE := fun a b => inferInstanceAs (Decidable (cmpEvents a b ≤ 0))

/-- The sort step of `fetchAndInsertEvents`: `allEvents.sort(comparator)`.
JavaScript `Array.prototype.sort` is required to be stable, so it is
modelled by the stable `List.insertionSort` over `evLE`. -/
def sortEvents (l : List NormalizedEvent) : List NormalizedEvent :=
  List.insertionSort evLE l

/-- The parenthesized start-time marker of one rendered line (src/main.ts
line 542): `event.start?.dateTime || event.start?.date || 'All day'`. -/
def startTimeLabel (event : RawEvent) : String :=
  jsOrStr event.startDateTime (jsOrStr event.startDate ("All day"))

/-- The optional bracketed source label of one rendered line (src/main.ts
line 545): present exactly when the calendar label is truthy. -/
def calendarTag (label : String) : String :=
  if label == "" then "" else (" [") ++ label ++ ("]")

/-- The optional indented description continuation of one rendered line
(src/main.ts line 544): present exactly when the description is truthy. -/
def descriptionSuffix (event : RawEvent) : String :=
  match event.description with
  | some d => if d == "" then "" else ("\n  ") ++ d
  | none => ""

/-- One rendered event line of `fetchAndInsertEvents` (src/main.ts lines
540-548). -/
def renderEvent (item : NormalizedEvent) : String :=
  ("- **") ++ jsOrStr item.event.summary ("(No title)") ++ ("**")
    ++ calendarTag item.calendarLabel
    ++ (" (") ++ startTimeLabel item.event ++ (")")
    ++ descriptionSuffix item.event ++ ("\n")

/-- The full rendered text block (src/main.ts lines 539-548): the date
header followed by one line per event, in the given order. -/
def renderEvents (dateStr : String) (items : List NormalizedEvent) : String :=
  items.foldl (fun acc item => acc ++ renderEvent item)
    (("## Calendar Events for ") ++ dateStr ++ ("\n\n"))

/-- Modelled from the spec (the fold of design note 4 in section 9 and step
3 of section 4.2, describing what the loop must produce): the events of
exactly the succeeding sources, each normalized with its configured
position, in configured order; a failing source contributes zero events. -/
def okSourceEvents (parse : String → Int) (i : Nat)
    (sources : List (Calendar × Except String (List RawEvent))) :
    List NormalizedEvent :=
  match sources with
  | [] => []
  | (calendar, Except.ok items) :: rest =>
      items.map (normalizeEvent parse calendar i) ++ okSourceEvents parse (i + 1) rest
  | (_, Except.error _) :: rest => okSourceEvents parse (i + 1) rest

/-- Modelled from the spec (step 3 of section 4.2): one recorded diagnostic
per failing source, naming that source, in configured order. -/
def sourceDiagnostics
    (sources : List (Calendar × Except String (List RawEvent))) : List String :=
  sources.filterMap fun p =>
    match p.2 with
    | Except.error e => some (sourceFailureNotice p.1 e)
    | Except.ok _ => none

/-- Invariant established by normalization: a timed event always has a
resolved start instant (a present `dateTime` string is truthy, so it is
parsed). -/
def evInv (e : NormalizedEvent) : Bool :=
  e.isAllDay || e.startTime.isSome

lemma normalizeEvent_evInv (parse : String → Int) (calendar : Calendar) (i : Nat)
    (event : RawEvent) : evInv (normalizeEvent parse calendar i event) = true := by
  unfold evInv normalizeEvent
  cases h : event.startDateTime with
  | none => simp [strTruthy, h]
  | some s =>
    by_cases hs : s = ""
    · simp [strTruthy, h, hs]
    · simp [strTruthy, h, hs]

lemma cmpEvents_neg (a b : NormalizedEvent) : cmpEvents b a = -cmpEvents a b := by
  rcases a with ⟨ae, al, ai, ad, as'⟩
  rcases b with ⟨be, bl, bi, bd, bs⟩
  cases ad <;> cases bd <;> cases as' <;> cases bs <;>
    (simp [cmpEvents]; try split_ifs <;> omega)

lemma evLE_total (a b : NormalizedEvent) : evLE a b ∨ evLE b a := by
  unfold evLE
  have h := cmpEvents_neg a b
  omega

lemma evLE_antisymm_eq_zero {a b : NormalizedEvent} (h1 : evLE a b) (h2 : evLE b a) :
    cmpEvents a b = 0 := by
  unfold evLE at h1 h2
  have h := cmpEvents_neg a b
  omega

lemma evLE_trans_inv {a b c : NormalizedEvent}
    (ha : evInv a = true) (hb : evInv b = true) (hc : evInv c = true)
    (h1 : evLE a b) (h2 : evLE b c) : evLE a c := by
  rcases a with ⟨ae, al, ai, ad, as'⟩
  rcases b with ⟨be, bl, bi, bd, bs⟩
  rcases c with ⟨ce, cl, ci, cd, cs⟩
  unfold evInv at ha hb hc
  unfold evLE cmpEvents at h1 h2 ⊢
  cases ad <;> cases bd <;> cases cd <;>
    simp_all <;>
    (try obtain ⟨ta, rfl⟩ := Option.isSome_iff_exists.mp ha) <;>
    (try obtain ⟨tb, rfl⟩ := Option.isSome_iff_exists.mp hb) <;>
    (try obtain ⟨tc, rfl⟩ := Option.isSome_iff_exists.mp hc) <;>
    (try simp_all) <;> (try split_ifs at *) <;> omega

lemma pairwise_orderedInsert (x : NormalizedEvent) (l : List NormalizedEvent)
    (hx : evInv x = true) (hl : ∀ e ∈ l, evInv e = true)
    (hs : l.Pairwise evLE) : (l.orderedInsert evLE x).Pairwise evLE := by
  induction l with
  | nil => simp
  | cons y ys ih =>
    rw [List.orderedInsert]
    by_cases h : evLE x y
    · rw [if_pos h]
      refine List.Pairwise.cons ?_ hs
      intro z hz
      rcases List.mem_cons.mp hz with rfl | hz'
      · exact h
      · exact evLE_trans_inv hx (hl y (List.mem_cons_self y ys))
          (hl z (List.mem_cons_of_mem y hz')) h
          (List.rel_of_pairwise_cons hs hz')
    · rw [if_neg h]
      have hyx : evLE y x := (evLE_total x y).resolve_left h
      refine List.Pairwise.cons ?_ ?_
      · intro z hz
        rcases (List.mem_orderedInsert evLE).mp hz with rfl | hz'
        · exact hyx
        · exact List.rel_of_pairwise_cons hs hz'
      · exact ih (fun e he => hl e (List.mem_cons_of_mem y he)) hs.of_cons

lemma pairwise_sortEvents (l : List NormalizedEvent)
    (hl : ∀ e ∈ l, evInv e = true) : (sortEvents l).Pairwise evLE := by
  induction l with
  | nil => simp [sortEvents]
  | cons x xs ih =>
    have hmem : ∀ e ∈ List.insertionSort evLE xs, evInv e = true := fun e he =>
      hl e (List.mem_cons_of_mem x ((List.perm_insertionSort evLE xs).mem_iff.mp he))
    exact pairwise_orderedInsert x (List.insertionSort evLE xs)
      (hl x (List.mem_cons_self x xs)) hmem
      (ih fun e he => hl e (List.mem_cons_of_mem x he))

/-- The first ordering property of the spec: in the output, every all-day
event precedes every timed event. -/
def allDayFirst (l : List NormalizedEvent) : Prop :=
  l.Pairwise fun a b => b.isAllDay = true → a.isAllDay = true

/-- The second ordering property of the spec: timed events appear in
non-decreasing order of their start instants. -/
def timedNondecreasing (l : List NormalizedEvent) : Prop :=
  l.Pairwise fun a b => ∀ ta tb : Int, a.isAllDay = false → b.isAllDay = false →
    a.startTime = some ta → b.startTime = some tb → ta ≤ tb

/-- The third ordering property of the spec: events agreeing on
`(isAllDay, startInstant)` appear in non-decreasing source order. -/
def sourceOrderTieBreak (l : List NormalizedEvent) : Prop :=
  l.Pairwise fun a b => a.isAllDay = b.isAllDay → a.startTime = b.startTime →
    a.calendarIndex ≤ b.calendarIndex

lemma evLE_allDayFirst {a b : NormalizedEvent} (h : evLE a b) :
    b.isAllDay = true → a.isAllDay = true := by
  intro hb
  by_contra ha
  rcases a with ⟨ae, al, ai, ad, as'⟩
  rcases b with ⟨be, bl, bi, bd, bs⟩
  simp only at hb
  cases ad
  · subst hb
    unfold evLE cmpEvents at h
    simp at h
  · exact ha rfl

lemma evLE_timedNondecreasing {a b : NormalizedEvent} (h : evLE a b) :
    ∀ ta tb : Int, a.isAllDay = false → b.isAllDay = false →
      a.startTime = some ta → b.startTime = some tb → ta ≤ tb := by
  intro ta tb ha hb hta htb
  rcases a with ⟨ae, al, ai, ad, as'⟩
  rcases b with ⟨be, bl, bi, bd, bs⟩
  simp only at ha hb hta htb
  subst ha hb hta htb
  unfold evLE cmpEvents at h
  simp at h
  split_ifs at h <;> simp_all

lemma evLE_sourceOrderTieBreak {a b : NormalizedEvent} (h : evLE a b) :
    a.isAllDay = b.isAllDay → a.startTime = b.startTime →
      a.calendarIndex ≤ b.calendarIndex := by
  intro hd hst
  rcases a with ⟨ae, al, ai, ad, as'⟩
  rcases b with ⟨be, bl, bi, bd, bs⟩
  simp only at hd hst
  subst hd hst
  unfold evLE cmpEvents at h
  cases ad <;> cases as' <;> simp_all

lemma fetchLoopGo_spec (parse : String → Int) :
    ∀ (rem : List (Calendar × Except String (List RawEvent))) (i : Nat)
      (allEvents : List NormalizedEvent) (notices : List String),
      fetchLoopGo parse i rem allEvents notices =
        (allEvents ++ okSourceEvents parse i rem, notices ++ sourceDiagnostics rem)
  | [], i, acc1, acc2 => by
    simp [fetchLoopGo, okSourceEvents, sourceDiagnostics]
  | (calendar, Except.ok items) :: rest, i, acc1, acc2 => by
    rw [fetchLoopGo, fetchLoopGo_spec parse rest]
    simp [okSourceEvents, sourceDiagnostics]
  | (calendar, Except.error err) :: rest, i, acc1, acc2 => by
    rw [fetchLoopGo, fetchLoopGo_spec parse rest]
    simp [okSourceEvents, sourceDiagnostics]

/-- A concrete stand-in for the JavaScript `Date` parser, used only to
instantiate universally quantified theorems on concrete inputs. Equal start
strings map to equal instants. -/
def sampleParse : String → Int := fun s => (s.length : Int)

def workCalendar : Calendar := { id := "primary", label := "Work" }

def personalCalendar : Calendar := { id := "personal@example.com", label := "Personal" }

def holidaysCalendar : Calendar := { id := "holidays@example.com", label := "Holidays" }

def rawStandupA : RawEvent :=
  { summary := some ("A"), startDateTime := some ("2024-03-15T09:00:00Z"),
    startDate := none, description := none }

def rawStandupB : RawEvent :=
  { summary := some ("B"), startDateTime := some ("2024-03-15T09:00:00Z"),
    startDate := none, description := none }

def rawBirthday : RawEvent :=
  { summary := some ("Birthday"), startDateTime := none,
    startDate := some ("2024-03-15"), description := none }

def rawEmpty : RawEvent :=
  { summary := none, startDateTime := none, startDate := none, description := none }

/-- Claim C1, counterexample. Two timed events from the same calendar with
the same start instant and different titles are tied under the merge
comparator, and the stable sort keeps their arrival order, so permuting the
fetched input permutes the output: the output order is NOT the same for
every permutation of the input multiset. -/
theorem C1_counterexample :
    ((fetchLoop sampleParse [(workCalendar, Except.ok [rawStandupB, rawStandupA])]).1).Perm
      ((fetchLoop sampleParse [(workCalendar, Except.ok [rawStandupA, rawStandupB])]).1) ∧
    sortEvents ((fetchLoop sampleParse [(workCalendar, Except.ok [rawStandupB, rawStandupA])]).1) ≠
      sortEvents ((fetchLoop sampleParse [(workCalendar, Except.ok [rawStandupA, rawStandupB])]).1) := by
  decide

/-- Claim C1 (amended): for every multiset of NormalizedEvents satisfying
the normalization invariant, the sorted output puts every all-day event
before every timed event, timed events in non-decreasing order of start
instant, and events with equal classification and start instant in
non-decreasing source order; and, provided no two distinct events of the
multiset are tied under the merge comparator, the output is the same for
every permutation of the input. -/
theorem C1_sort_order (l : List NormalizedEvent)
    (hinv : ∀ e ∈ l, evInv e = true) :
    allDayFirst (sortEvents l) ∧ timedNondecreasing (sortEvents l) ∧
    sourceOrderTieBreak (sortEvents l) ∧
    ((∀ a ∈ l, ∀ b ∈ l, cmpEvents a b = 0 → a = b) →
      ∀ l' : List NormalizedEvent, l'.Perm l → sortEvents l' = sortEvents l) := by
  have hp := pairwise_sortEvents l hinv
  refine ⟨List.Pairwise.imp (fun h => evLE_allDayFirst h) hp,
    List.Pairwise.imp (fun h => evLE_timedNondecreasing h) hp,
    List.Pairwise.imp (fun h => evLE_sourceOrderTieBreak h) hp, ?_⟩
  intro hanti l' hperm
  have hmem' : ∀ e ∈ l', evInv e = true := fun e he => hinv e (hperm.mem_iff.mp he)
  have hback : ∀ e ∈ sortEvents l', e ∈ l := fun e he =>
    hperm.mem_iff.mp ((List.perm_insertionSort evLE l').mem_iff.mp he)
  have hback2 : ∀ e ∈ sortEvents l, e ∈ l := fun e he =>
    (List.perm_insertionSort evLE l).mem_iff.mp he
  refine List.Perm.eq_of_sorted ?_ (pairwise_sortEvents l' hmem') (pairwise_sortEvents l hinv) ?_
  · intro a b ha hb h1 h2
    exact hanti a (hback a ha) b (hback2 b hb) (evLE_antisymm_eq_zero h1 h2)
  · exact (List.perm_insertionSort evLE l').trans (hperm.trans (List.perm_insertionSort evLE l).symm)

def sampleAllDay : NormalizedEvent :=
  { event := rawBirthday, calendarLabel := "Personal", calendarIndex := 1,
    isAllDay := true, startTime := some 10 }

def sampleTimed : NormalizedEvent :=
  { event := rawStandupA, calendarLabel := "Work", calendarIndex := 0,
    isAllDay := false, startTime := some 21 }

/-- Claim C1, witness for the amended theorem at a concrete list. -/
theorem C1_witness :
    (∀ e ∈ [sampleTimed, sampleAllDay], evInv e = true) ∧
    (allDayFirst (sortEvents [sampleTimed, sampleAllDay]) ∧
      timedNondecreasing (sortEvents [sampleTimed, sampleAllDay]) ∧
      sourceOrderTieBreak (sortEvents [sampleTimed, sampleAllDay]) ∧
      ((∀ a ∈ [sampleTimed, sampleAllDay], ∀ b ∈ [sampleTimed, sampleAllDay],
          cmpEvents a b = 0 → a = b) →
        ∀ l' : List NormalizedEvent, l'.Perm [sampleTimed, sampleAllDay] →
          sortEvents l' = sortEvents [sampleTimed, sampleAllDay])) :=
  ⟨by decide, C1_sort_order [sampleTimed, sampleAllDay] (by decide)⟩

def c2EarlierAllDay : NormalizedEvent :=
  { event := rawBirthday, calendarLabel := "Personal", calendarIndex := 5,
    isAllDay := true, startTime := some 1 }

def c2LaterAllDay : NormalizedEvent :=
  { event := rawBirthday, calendarLabel := "Work", calendarIndex := 0,
    isAllDay := true, startTime := some 2 }

/-- Claim C2, counterexample. Two all-day events, both with resolved start
instants, the first strictly earlier: the comparator never consults the
instants for an all-day pair, so the later event (with the smaller source
order) sorts first, contradicting the claimed earlier-instant-first rule. -/
theorem C2_counterexample :
    c2EarlierAllDay.isAllDay = true ∧ c2LaterAllDay.isAllDay = true ∧
    c2EarlierAllDay.startTime = some 1 ∧ c2LaterAllDay.startTime = some 2 ∧
    0 < cmpEvents c2EarlierAllDay c2LaterAllDay ∧
    sortEvents [c2EarlierAllDay, c2LaterAllDay] = [c2LaterAllDay, c2EarlierAllDay] := by
  decide

/-- Claim C2 (amended): for a pair of all-day events the merge comparator
ignores the start instants entirely and compares by source order alone; the
earlier-instant-sorts-strictly-first rule holds only for pairs of timed
events with resolved instants. -/
theorem C2_comparator_rules :
    (∀ a b : NormalizedEvent, a.isAllDay = true → b.isAllDay = true →
      cmpEvents a b = (a.calendarIndex : Int) - (b.calendarIndex : Int)) ∧
    (∀ a b : NormalizedEvent, ∀ ta tb : Int, a.isAllDay = false → b.isAllDay = false →
      a.startTime = some ta → b.startTime = some tb → ta < tb → cmpEvents a b < 0) := by
  constructor
  · intro a b ha hb
    rcases a with ⟨ae, al, ai, ad, as'⟩
    rcases b with ⟨be, bl, bi, bd, bs⟩
    simp only at ha hb
    subst ha hb
    simp [cmpEvents]
  · intro a b ta tb ha hb hta htb hlt
    rcases a with ⟨ae, al, ai, ad, as'⟩
    rcases b with ⟨be, bl, bi, bd, bs⟩
    simp only at ha hb hta htb
    subst ha hb hta htb
    simp [cmpEvents]
    split_ifs <;> omega

def c2TimedEarly : NormalizedEvent :=
  { event := rawStandupA, calendarLabel := "Work", calendarIndex := 3,
    isAllDay := false, startTime := some 1 }

def c2TimedLate : NormalizedEvent :=
  { event := rawStandupB, calendarLabel := "Work", calendarIndex := 0,
    isAllDay := false, startTime := some 2 }

/-- Claim C2, witness for the amended theorem at concrete events. -/
theorem C2_witness :
    cmpEvents c2EarlierAllDay c2LaterAllDay =
      (c2EarlierAllDay.calendarIndex : Int) - (c2LaterAllDay.calendarIndex : Int) ∧
    cmpEvents c2TimedEarly c2TimedLate < 0 :=
  ⟨C2_comparator_rules.1 c2EarlierAllDay c2LaterAllDay rfl rfl,
   C2_comparator_rules.2 c2TimedEarly c2TimedLate 1 2 rfl rfl rfl rfl (by decide)⟩

/-- Claim C3, counterexample. An all-day event carrying a start date renders
the raw date string as its parenthesized marker, not the literal string
denoting a full-day event; that literal appears only when both start fields
are absent. -/
theorem C3_counterexample :
    (normalizeEvent sampleParse personalCalendar 1 rawBirthday).isAllDay = true ∧
    startTimeLabel rawBirthday = ("2024-03-15") ∧
    startTimeLabel rawBirthday ≠ ("All day") ∧
    renderEvent (normalizeEvent sampleParse personalCalendar 1 rawBirthday) =
      ("- **Birthday** [Personal] (2024-03-15)\n") := by
  decide

/-- Claim C3 (amended): the parenthesized start-time marker is the raw
upstream `dateTime` string when that is present and non-empty, else the raw
upstream `date` string when that is present and non-empty (so an all-day
event with a date shows its raw date, unformatted), and the literal
`All day` exactly when neither is; the bracketed source label is omitted
when the source label is empty. -/
theorem C3_render_rules :
    (∀ (e : RawEvent) (s : String), e.startDateTime = some s → s ≠ ("") →
      startTimeLabel e = s) ∧
    (∀ (e : RawEvent) (s : String), strTruthy e.startDateTime = false →
      e.startDate = some s → s ≠ ("") → startTimeLabel e = s) ∧
    (∀ e : RawEvent, strTruthy e.startDateTime = false → strTruthy e.startDate = false →
      startTimeLabel e = ("All day")) ∧
    (∀ item : NormalizedEvent, item.calendarLabel = ("") →
      renderEvent item = ("- **") ++ jsOrStr item.event.summary ("(No title)") ++ ("**")
        ++ (" (") ++ startTimeLabel item.event ++ (")")
        ++ descriptionSuffix item.event ++ ("\n")) := by
  refine ⟨?_, ?_, ?_, ?_⟩
  · intro e s h hs
    simp [startTimeLabel, jsOrStr, h, hs]
  · intro e s hdt h hs
    cases hd : e.startDateTime with
    | none => simp [startTimeLabel, jsOrStr, hd, h, hs]
    | some d =>
      have : d = "" := by simpa [strTruthy, hd] using hdt
      simp [startTimeLabel, jsOrStr, hd, this, h, hs]
  · intro e hdt hd
    cases h1 : e.startDateTime with
    | none =>
      cases h2 : e.startDate with
      | none => simp [startTimeLabel, jsOrStr, h1, h2]
      | some d =>
        have : d = "" := by simpa [strTruthy, h2] using hd
        simp [startTimeLabel, jsOrStr, h1, h2, this]
    | some d =>
      have hde : d = "" := by simpa [strTruthy, h1] using hdt
      cases h2 : e.startDate with
      | none => simp [startTimeLabel, jsOrStr, h1, h2, hde]
      | some d2 =>
        have : d2 = "" := by simpa [strTruthy, h2] using hd
        simp [startTimeLabel, jsOrStr, h1, h2, hde, this]
  · intro item h
    simp [renderEvent, calendarTag, h, String.append_empty]

def noLabelItem : NormalizedEvent :=
  { event := rawStandupA, calendarLabel := "", calendarIndex := 0,
    isAllDay := false, startTime := some 21 }

/-- Claim C3, witness for the amended theorem at concrete events. -/
theorem C3_witness :
    startTimeLabel rawStandupA = ("2024-03-15T09:00:00Z") ∧
    startTimeLabel rawBirthday = ("2024-03-15") ∧
    startTimeLabel rawEmpty = ("All day") ∧
    renderEvent noLabelItem = ("- **") ++ jsOrStr noLabelItem.event.summary ("(No title)")
      ++ ("**") ++ (" (") ++ startTimeLabel noLabelItem.event ++ (")")
      ++ descriptionSuffix noLabelItem.event ++ ("\n") :=
  ⟨C3_render_rules.1 rawStandupA ("2024-03-15T09:00:00Z") rfl (by decide),
   C3_render_rules.2.1 rawBirthday ("2024-03-15") rfl rfl (by decide),
   C3_render_rules.2.2.1 rawEmpty rfl rfl,
   C3_render_rules.2.2.2 noLabelItem rfl⟩

/-- Claim C4: with a mix of failing and succeeding sources, the fetch loop
still returns a result (it is a total function of the per-source outcomes):
the aggregated events are exactly the normalized events of the succeeding
sources in configured order, and the diagnostics name exactly the failing
sources, one notice each, in configured order. -/
theorem C4_partial_failure (parse : String → Int)
    (sources : List (Calendar × Except String (List RawEvent)))
    (hfail : ∃ p ∈ sources, ∃ e, p.2 = Except.error e)
    (hok : ∃ p ∈ sources, ∃ items, p.2 = Except.ok items) :
    fetchLoop parse sources = (okSourceEvents parse 0 sources, sourceDiagnostics sources) := by
  unfold fetchLoop
  rw [fetchLoopGo_spec]
  simp

def c4Sources : List (Calendar × Except String (List RawEvent)) :=
  [(workCalendar, Except.ok [rawStandupA]),
   (personalCalendar, Except.error ("network down")),
   (holidaysCalendar, Except.ok [rawBirthday])]

/-- Claim C4, witness: three configured sources of which exactly one fails
transport. -/
theorem C4_witness :
    ((∃ p ∈ c4Sources, ∃ e, p.2 = Except.error e) ∧
      (∃ p ∈ c4Sources, ∃ items, p.2 = Except.ok items)) ∧
    fetchLoop sampleParse c4Sources =
      (okSourceEvents sampleParse 0 c4Sources, sourceDiagnostics c4Sources) :=
  have hfail : ∃ p ∈ c4Sources, ∃ e, p.2 = Except.error e :=
    ⟨(personalCalendar, Except.error ("network down")),
      List.mem_cons_of_mem _ (List.mem_cons_self _ _), ("network down"), rfl⟩
  have hok : ∃ p ∈ c4Sources, ∃ items, p.2 = Except.ok items :=
    ⟨(workCalendar, Except.ok [rawStandupA]), List.mem_cons_self _ _, [rawStandupA], rfl⟩
  ⟨⟨hfail, hok⟩, C4_partial_failure sampleParse c4Sources hfail hok⟩

def c5NoRefreshSettings : GoogleCalendarSettings :=
  { clientId := "id", clientSecret := "secret", refreshToken := "",
    accessToken := "valid-token", accessTokenExpiry := 1000000,
    calendars := [workCalendar] }

/-- Claim C5, counterexample. A Credential with a non-empty access token
and an expiry far beyond the buffer, but an empty refresh token: the
refresh-token check runs first, so the call fails with the
not-authenticated outcome instead of succeeding on the fast path. -/
theorem C5_counterexample :
    c5NoRefreshSettings.accessToken ≠ ("") ∧
    c5NoRefreshSettings.accessTokenExpiry > 0 + 60000 ∧
    (ensureValidAccessToken c5NoRefreshSettings 0 (Except.error ("e"))).outcome =
      AuthOutcome.notAuthenticated ∧
    (ensureValidAccessToken c5NoRefreshSettings 0 (Except.error ("e"))).outcome ≠
      AuthOutcome.ok := by
  decide

/-- Claim C5 (amended): when additionally the refresh token is non-empty, a
non-empty access token with expiry strictly beyond now plus 60000
milliseconds makes `ensureValidAccessToken` succeed immediately with zero
network calls, zero persistence writes and the Credential unchanged. -/
theorem C5_fast_path (s : GoogleCalendarSettings) (now : Int)
    (net : Except String RefreshResponse)
    (hr : s.refreshToken ≠ ("")) (ha : s.accessToken ≠ (""))
    (he : s.accessTokenExpiry > now + 60000) :
    ensureValidAccessToken s now net =
      { outcome := AuthOutcome.ok, settings := s, networkCalls := 0, saves := 0 } := by
  unfold ensureValidAccessToken
  rw [if_neg hr, if_pos ⟨ha, he⟩]

def c5GoodSettings : GoogleCalendarSettings :=
  { clientId := "id", clientSecret := "secret", refreshToken := "refresh",
    accessToken := "valid-token", accessTokenExpiry := 1000000,
    calendars := [workCalendar] }

/-- Claim C5, witness for the amended theorem at a concrete Credential. -/
theorem C5_witness :
    (c5GoodSettings.refreshToken ≠ ("") ∧ c5GoodSettings.accessToken ≠ ("") ∧
      c5GoodSettings.accessTokenExpiry > 0 + 60000) ∧
    ensureValidAccessToken c5GoodSettings 0 (Except.error ("e")) =
      { outcome := AuthOutcome.ok, settings := c5GoodSettings,
        networkCalls := 0, saves := 0 } :=
  ⟨by decide, C5_fast_path c5GoodSettings 0 (Except.error ("e"))
    (by decide) (by decide) (by decide)⟩

/-- Claim C6: with an empty refresh token, `ensureValidAccessToken` fails
with the not-authenticated outcome, issues zero network calls, writes
nothing, and leaves the Credential unchanged, whatever the access token,
its expiry, and the would-be network outcome. -/
theorem C6_not_authenticated (s : GoogleCalendarSettings) (now : Int)
    (net : Except String RefreshResponse) (h : s.refreshToken = ("")) :
    ensureValidAccessToken s now net =
      { outcome := AuthOutcome.notAuthenticated, settings := s,
        networkCalls := 0, saves := 0 } := by
  unfold ensureValidAccessToken
  rw [if_pos h]

/-- Claim C6, witness at a concrete Credential (which even has a usable
access token). -/
theorem C6_witness :
    c5NoRefreshSettings.refreshToken = ("") ∧
    ensureValidAccessToken c5NoRefreshSettings 0 (Except.error ("e")) =
      { outcome := AuthOutcome.notAuthenticated, settings := c5NoRefreshSettings,
        networkCalls := 0, saves := 0 } :=
  ⟨rfl, C6_not_authenticated c5NoRefreshSettings 0 (Except.error ("e")) rfl⟩

/-- Claim C7: when the refresh path is taken and the parsed response lacks
an access token, the call fails with the refresh-rejected outcome and the
Credential is left entirely unchanged, with no persistence write. -/
theorem C7_refresh_rejected (s : GoogleCalendarSettings) (now : Int)
    (data : RefreshResponse)
    (hr : s.refreshToken ≠ (""))
    (hstale : ¬(s.accessToken ≠ ("") ∧ s.accessTokenExpiry > now + 60000))
    (hmiss : data.access_token = none) :
    ensureValidAccessToken s now (Except.ok data) =
      { outcome := AuthOutcome.refreshRejected, settings := s,
        networkCalls := 1, saves := 0 } := by
  unfold ensureValidAccessToken
  rw [if_neg hr, if_neg hstale]
  simp [strTruthy, hmiss]

def c7StaleSettings : GoogleCalendarSettings :=
  { clientId := "id", clientSecret := "secret", refreshToken := "refresh",
    accessToken := "", accessTokenExpiry := 0, calendars := [workCalendar] }

def c7Rejection : RefreshResponse := { access_token := none, expires_in := some 3600 }

/-- Claim C7, witness at a concrete stale Credential and token-less
response. -/
theorem C7_witness :
    (c7StaleSettings.refreshToken ≠ ("") ∧
      ¬(c7StaleSettings.accessToken ≠ ("") ∧
        c7StaleSettings.accessTokenExpiry > 0 + 60000) ∧
      c7Rejection.access_token = none) ∧
    ensureValidAccessToken c7StaleSettings 0 (Except.ok c7Rejection) =
      { outcome := AuthOutcome.refreshRejected, settings := c7StaleSettings,
        networkCalls := 1, saves := 0 } :=
  ⟨by decide, C7_refresh_rejected c7StaleSettings 0 c7Rejection
    (by decide) (by decide) rfl⟩

lemma ensure_saves_success (s : GoogleCalendarSettings) (now : Int)
    (net : Except String RefreshResponse)
    (h : (ensureValidAccessToken s now net).saves ≠ 0) :
    (ensureValidAccessToken s now net).saves = 1 ∧
    (ensureValidAccessToken s now net).outcome = AuthOutcome.ok ∧
    (ensureValidAccessToken s now net).networkCalls = 1 := by
  unfold ensureValidAccessToken at h ⊢
  by_cases h1 : s.refreshToken = ""
  · rw [if_pos h1] at h
    simp at h
  · rw [if_neg h1] at h ⊢
    by_cases h2 : s.accessToken ≠ ("") ∧ s.accessTokenExpiry > now + 60000
    · rw [if_pos h2] at h
      simp at h
    · rw [if_neg h2] at h ⊢
      rcases net with e | d
      · simp at h
      · by_cases h3 : strTruthy d.access_token = true
        · simp [h3]
        · simp [h3] at h

def c8ZeroResponse : RefreshResponse :=
  { access_token := some ("new-token"), expires_in := some 0 }

/-- Claim C8, counterexample. A successful refresh whose response carries
`expires_in = 0`: the code treats the present zero as falsy and uses the
3600-second default, so the new expiry is the call instant plus 3600000
rather than the call instant plus `expires_in * 1000`, although
`expires_in` is not absent. -/
theorem C8_counterexample :
    c8ZeroResponse.expires_in = some 0 ∧
    (ensureValidAccessToken c7StaleSettings 0 (Except.ok c8ZeroResponse)).outcome =
      AuthOutcome.ok ∧
    (ensureValidAccessToken c7StaleSettings 0 (Except.ok c8ZeroResponse)).settings.accessTokenExpiry
      = 3600000 ∧
    (ensureValidAccessToken c7StaleSettings 0 (Except.ok c8ZeroResponse)).settings.accessTokenExpiry
      ≠ 0 + 0 * 1000 := by
  decide

/-- Claim C8 (amended): on a successful refresh the new expiry is the call
instant plus `expires_in * 1000`, with the 3600000-millisecond default used
exactly when `expires_in` is absent or zero; the Credential is persisted
exactly once on this path, and every path that persists at all is a
successful refresh persisting exactly once. -/
theorem C8_refresh_success (s : GoogleCalendarSettings) (now : Int)
    (data : RefreshResponse)
    (hr : s.refreshToken ≠ (""))
    (hstale : ¬(s.accessToken ≠ ("") ∧ s.accessTokenExpiry > now + 60000))
    (htok : strTruthy data.access_token = true) :
    ((data.expires_in = none ∨ data.expires_in = some 0) →
      (ensureValidAccessToken s now (Except.ok data)).settings.accessTokenExpiry =
        now + 3600000) ∧
    (∀ v : Int, data.expires_in = some v → v ≠ 0 →
      (ensureValidAccessToken s now (Except.ok data)).settings.accessTokenExpiry =
        now + v * 1000) ∧
    (ensureValidAccessToken s now (Except.ok data)).saves = 1 ∧
    (∀ s' : GoogleCalendarSettings, ∀ now' : Int,
      ∀ net' : Except String RefreshResponse,
      (ensureValidAccessToken s' now' net').saves ≠ 0 →
      (ensureValidAccessToken s' now' net').saves = 1 ∧
      (ensureValidAccessToken s' now' net').outcome = AuthOutcome.ok ∧
      (ensureValidAccessToken s' now' net').networkCalls = 1) := by
  refine ⟨?_, ?_, ?_, ?_⟩
  · intro h
    unfold ensureValidAccessToken
    rw [if_neg hr, if_neg hstale]
    rcases h with h | h <;> simp [htok, jsOrNum, h]
  · intro v hv hvne
    unfold ensureValidAccessToken
    rw [if_neg hr, if_neg hstale]
    simp [htok, jsOrNum, hv, hvne]
  · unfold ensureValidAccessToken
    rw [if_neg hr, if_neg hstale]
    simp [htok]
  · intro s' now' net' h
    exact ensure_saves_success s' now' net' h

def c8FullResponse : RefreshResponse :=
  { access_token := some ("new-token"), expires_in := some 1800 }

/-- Claim C8, witness for the amended theorem at concrete inputs: the
zero-seconds response takes the default, the 1800-second response takes
the stated product, and the success path persists once. -/
theorem C8_witness :
    (c7StaleSettings.refreshToken ≠ ("") ∧
      ¬(c7StaleSettings.accessToken ≠ ("") ∧
        c7StaleSettings.accessTokenExpiry > 0 + 60000) ∧
      strTruthy c8FullResponse.access_token = true) ∧
    (ensureValidAccessToken c7StaleSettings 0 (Except.ok c8FullResponse)).settings.accessTokenExpiry
      = 0 + 1800 * 1000 ∧
    (ensureValidAccessToken c7StaleSettings 0 (Except.ok c8FullResponse)).saves = 1 :=
  ⟨⟨by decide, by decide, rfl⟩,
   (C8_refresh_success c7StaleSettings 0 c8FullResponse
      (by decide) (by decide) rfl).2.1 1800 rfl (by decide),
   (C8_refresh_success c7StaleSettings 0 c8FullResponse
      (by decide) (by decide) rfl).2.2.1⟩

/-- Claim C9: on every execution path of `ensureValidAccessToken` the
refresh token is unchanged, and so are the client id, the client secret and
the calendar list: only the access token and its expiry are ever
overwritten. -/
theorem C9_refresh_token_frame (s : GoogleCalendarSettings) (now : Int)
    (net : Except String RefreshResponse) :
    (ensureValidAccessToken s now net).settings.refreshToken = s.refreshToken ∧
    (ensureValidAccessToken s now net).settings.clientId = s.clientId ∧
    (ensureValidAccessToken s now net).settings.clientSecret = s.clientSecret ∧
    (ensureValidAccessToken s now net).settings.calendars = s.calendars := by
  unfold ensureValidAccessToken
  by_cases h1 : s.refreshToken = ""
  · rw [if_pos h1]
    exact ⟨rfl, rfl, rfl, rfl⟩
  · rw [if_neg h1]
    by_cases h2 : s.accessToken ≠ ("") ∧ s.accessTokenExpiry > now + 60000
    · rw [if_pos h2]
      exact ⟨rfl, rfl, rfl, rfl⟩
    · rw [if_neg h2]
      rcases net with e | d
      · exact ⟨rfl, rfl, rfl, rfl⟩
      · by_cases h3 : strTruthy d.access_token = true
        · simp [h3]
        · simp [h3]

/-- Claim C10: a raw event with neither start field is classified all-day
with a null start instant, the merge comparator puts it strictly before
every timed event, and its rendered start-time marker is the all-day
literal. -/
theorem C10_no_start_fields (parse : String → Int) (calendar : Calendar) (i : Nat)
    (event : RawEvent) (h1 : event.startDateTime = none) (h2 : event.startDate = none) :
    (normalizeEvent parse calendar i event).isAllDay = true ∧
    (normalizeEvent parse calendar i event).startTime = none ∧
    (∀ b : NormalizedEvent, b.isAllDay = false →
      cmpEvents (normalizeEvent parse calendar i event) b < 0) ∧
    startTimeLabel event = ("All day") := by
  have hA : (normalizeEvent parse calendar i event).isAllDay = true := by
    simp [normalizeEvent, strTruthy, h1]
  refine ⟨hA, ?_, ?_, ?_⟩
  · simp [normalizeEvent, strTruthy, h1, h2]
  · intro b hb
    unfold cmpEvents
    rw [hA, hb]
    simp
  · simp [startTimeLabel, jsOrStr, h1, h2]

/-- Claim C10, witness at the raw event with no fields at all. -/
theorem C10_witness :
    (rawEmpty.startDateTime = none ∧ rawEmpty.startDate = none) ∧
    ((normalizeEvent sampleParse workCalendar 0 rawEmpty).isAllDay = true ∧
      (normalizeEvent sampleParse workCalendar 0 rawEmpty).startTime = none ∧
      (∀ b : NormalizedEvent, b.isAllDay = false →
        cmpEvents (normalizeEvent sampleParse workCalendar 0 rawEmpty) b < 0) ∧
      startTimeLabel rawEmpty = ("All day")) :=
  ⟨⟨rfl, rfl⟩, C10_no_start_fields sampleParse workCalendar 0 rawEmpty rfl rfl⟩
